import Mathlib

/-
Verification of the YouTubeAutoList synchronization engine
(src/YouTubeAutoList.py, src/database_manager.py, src/rss_manager.py).

The Python classes are embedded as explicit state-passing Lean functions:

* `parseDuration`        — YouTubeManager._parse_duration (lines 696-715)
* `shortIndicators`,
  `isShortForm`,
  `videoMatchesCriteria` — YouTubeManager._video_matches_criteria (lines 602-694)
* `CacheState`,
  `getCachedData`,
  `updateCache`,
  `isCacheValid`         — YouTubeCache (lines 57-121)
* `ExecutionStats`       — ExecutionStats (lines 172-254)
* `MgrState`, `mainRun`,
  `managePlaylist`, ...  — YouTubeManager run pipeline and main() (lines 314-1226)

Machine integers are modeled as Nat (all the quantities involved are
non-negative counters, durations in seconds, or Unix timestamps); Python
dictionaries are modeled as association lists; I/O boundaries (the YouTube
API, the RSS feeds, the wall clock) are modeled as an explicit environment
record `ApiEnv`.
-/

/-! ### Association-list helpers (Python dict operations) -/

/-- Dictionary lookup, `d.get(key)` / `key in d`. -/
def lookupA {α : Type} : List (String × α) → String → Option α
  | [], _ => none
  | (k, v) :: t, key => if k = key then some v else lookupA t key

/-- Dictionary upsert, `d[key] = v`. -/
def setA {α : Type} : List (String × α) → String → α → List (String × α)
  | [], key, v => [(key, v)]
  | (k, w) :: t, key, v => if k = key then (key, v) :: t else (k, w) :: setA t key v

/-- Counter increment, `d[key] = d.get(key, 0) + n`. -/
def bump : List (String × Nat) → String → Nat → List (String × Nat)
  | [], key, n => [(key, n)]
  | (k, v) :: t, key, n => if k = key then (k, v + n) :: t else (k, v) :: bump t key n

/-- Sum of all values of a counter dictionary, `sum(d.values())`. -/
def sumVals (l : List (String × Nat)) : Nat := (l.map Prod.snd).sum

/-! ### Python substring test (`needle in haystack`) -/

/-- Does the second list start with the first one? -/
def leadsWith : List Char → List Char → Bool
  | [], _ => true
  | _ :: _, [] => false
  | a :: as, b :: bs => a == b && leadsWith as bs

/-- Python substring containment `needle in hay` on strings, modeled on the
character lists. -/
def containsSub : List Char → List Char → Bool
  | [], needle => needle.isEmpty
  | c :: t, needle => leadsWith needle (c :: t) || containsSub t needle

/-- Python `s.lower()` (the strings scanned by the classifier are ASCII). -/
def lowerL (l : List Char) : List Char := l.map Char.toLower

/-! ### DurationCodec: YouTubeManager._parse_duration (lines 696-715)

The source matches `PT(?:(\d+)H)?(?:(\d+)M)?(?:(\d+)S)?` with `re.match`
(anchored at the start, trailing garbage ignored) and returns
`hours*3600 + minutes*60 + seconds`, each group defaulting to 0; any string
not starting with the `PT` designator yields 0 (the documented fail-soft). -/

/-- Value of a run of decimal digits, as Python `int()` computes it. -/
def digitsVal (l : List Char) : Nat :=
  l.foldl (fun a c => a * 10 + (c.toNat - 48)) 0

/-- One optional regex group `(?:(\d+)X)?`: consume a maximal run of digits
followed by the designator `X`, or consume nothing. -/
def parseGroup (cs : List Char) (designator : Char) : Option Nat × List Char :=
  match List.span Char.isDigit cs with
  | (ds, rest) =>
    match rest with
    | c :: tail =>
        if ds ≠ [] ∧ c = designator then (some (digitsVal ds), tail) else (none, cs)
    | [] => (none, cs)

/-- `_parse_duration` (lines 696-715): ISO-8601-style `PT#H#M#S` to seconds,
0 on anything that does not match the anchored pattern. -/
def parseDuration (s : String) : Nat :=
  match s.data with
  | 'P' :: 'T' :: rest =>
    let hg := parseGroup rest 'H'
    let mg := parseGroup hg.2 'M'
    let sg := parseGroup mg.2 'S'
    hg.1.getD 0 * 3600 + mg.1.getD 0 * 60 + sg.1.getD 0
  | _ => 0

/-- Decimal digit list of a natural number, most significant first. -/
def natDigits (n : Nat) : List Char :=
  if _h : n < 10 then [Nat.digitChar n]
  else natDigits (n / 10) ++ [Nat.digitChar (n % 10)]
decreasing_by exact Nat.div_lt_self (by omega) (by omega)

/-- Modelled from the spec: the encoding direction of DurationCodec.  The
repository parses the designator-based duration strings delivered by the API
but contains no exact formatter back into that encoding (its only formatter,
`format_duration`, is the lossy hours/minutes display the spec excludes), so
the canonical `PT#H#M#S` rendering described in spec section 4.1
("period-hours-minutes-seconds", each component optional) is supplied here. -/
def encodeDuration (d : Nat) : String :=
  String.mk ('P' :: 'T' ::
    (natDigits (d / 3600) ++ 'H' ::
      (natDigits (d % 3600 / 60) ++ 'M' ::
        (natDigits (d % 60) ++ ['S']))))

/-- `ExecutionStats.format_duration` (lines 250-254): the lossy
hours/minutes display format, excluded from the round-trip claim. -/
def formatDurationDisplay (seconds : Nat) : String :=
  toString (seconds / 3600) ++ "h " ++ toString (seconds % 3600 / 60) ++ "m"

/-! ### ContentClassifier: YouTubeManager._video_matches_criteria (lines 602-694)

The video dictionaries returned by `videos().list(part="snippet,contentDetails")`
are modeled by `VideoDetails`.  An absent `snippet`/`contentDetails` key is an
`Option`; the snippet's `description` is read with `.get('description', '')`
in the source, so an absent description is indistinguishable from `""` and is
modeled as the plain string.  `thumbnails` is `Option (Option (Nat × Nat))`:
the outer layer is the `'thumbnails'` key itself (reading it when absent
raises KeyError, which the blanket handler at line 688 turns into `False`);
the inner layer is `.get('default', {})` together with the `if default_thumbnail:`
truthiness test — an absent or empty default dict skips the aspect indicator,
exactly like `none` here (width/height default to 0 via `.get(..., 0)`). -/

structure Snippet where
  title : String
  description : String
  thumbnails : Option (Option (Nat × Nat))
deriving DecidableEq

structure VideoDetails where
  id : String
  snippet : Option Snippet
  contentDetails : Option String
deriving DecidableEq

/-- One channel entry of the configuration file, as read by
`_video_matches_criteria` and `manage_playlist`.  `min_duration` defaults to 0
and `max_duration` to `float('inf')` via `.get`, so the absent-key defaults are
`0` and `none`. `hours_limit`/`max_results` influence only which API requests
are issued, never the decision logic, and are omitted. -/
structure ChannelConfig where
  channel_id : String
  channel_name : String
  playlist_id : Option String
  playlist_name : Option String
  title_pattern : Option String
  min_duration : Nat
  max_duration : Option Nat
deriving DecidableEq

/-- `duration <= max_duration` where `none` is `float('inf')`. -/
def durLe (d : Nat) (mx : Option Nat) : Bool :=
  match mx with
  | none => true
  | some m => d ≤ m

/-- The four-indicator Shorts count of lines 653-672, in source order:
marker in the lowercased description, marker in the lowercased title,
duration of at most 60 seconds, default thumbnail taller than wide. -/
def shortIndicators (sn : Snippet) (duration : Nat) (defaultThumb : Option (Nat × Nat)) : Nat :=
  let desc := lowerL sn.description.data
  let i1 : Nat := if containsSub desc "#shorts".data || containsSub desc "/shorts/".data then 1 else 0
  let i2 : Nat := if containsSub (lowerL sn.title.data) "#shorts".data then 1 else 0
  let i3 : Nat := if duration ≤ 60 then 1 else 0
  let i4 : Nat :=
    match defaultThumb with
    | some (w, h) => if w < h then 1 else 0
    | none => 0
  i1 + i2 + i3 + i4

/-- The Shorts verdict of line 674: at least 3 of the 4 indicators. -/
def isShortForm (sn : Snippet) (duration : Nat) (defaultThumb : Option (Nat × Nat)) : Bool :=
  decide (3 ≤ shortIndicators sn duration defaultThumb)

/-- Outcome of the title-pattern step (lines 610-638).  `research pat title`
stands for `re.search(pat, title, re.IGNORECASE)`: `some b` is a completed
search with verdict `b`, `none` is `re.error` (an invalid pattern), which the
source turns into rejection.  A `None` or empty configured pattern is falsy in
Python, so the step is skipped. -/
def titleGate (research : String → String → Option Bool) (cfg : ChannelConfig)
    (title : String) : Bool :=
  match cfg.title_pattern with
  | none => true
  | some p =>
    if p = "" then true
    else
      match research p title with
      | some true => true
      | some false => false
      | none => false

/-- `_video_matches_criteria` (lines 602-694).  `none` input models a falsy
`video_details` argument.  With `contentDetails` absent the duration and
Shorts blocks are skipped entirely (line 641) and the video is accepted;
with it present, a missing `thumbnails` key raises KeyError inside the Shorts
block and the blanket handler (lines 688-694) returns `False`. -/
def videoMatchesCriteria (research : String → String → Option Bool)
    (vd : Option VideoDetails) (cfg : ChannelConfig) : Bool :=
  match vd with
  | none => false
  | some v =>
    match v.snippet with
    | none => false
    | some sn =>
      if titleGate research cfg sn.title then
        match v.contentDetails with
        | none => true
        | some durStr =>
          let duration := parseDuration durStr
          if cfg.min_duration ≤ duration ∧ durLe duration cfg.max_duration = true then
            match sn.thumbnails with
            | none => false
            | some defaultThumb =>
              if isShortForm sn duration defaultThumb then false else true
          else false
      else false

/-! ### ResourceCache: YouTubeCache (lines 57-121)

`self.cache` is a dict of per-type dicts; `self.last_update` is one flat dict
keyed by resource key only (shared across types) which is never persisted.
`get_cached_data` (lines 86-100) validates against the module constant
`CACHE_DURATION = 7200`, while `is_cache_valid` (lines 115-121) validates
against the per-type `self.cache_duration` table.  Timestamps are seconds. -/

inductive CacheType where
  | videos
  | channels
  | playlists
  | progress
deriving DecidableEq

/-- Module constant `CACHE_DURATION` (line 34). -/
def CACHE_DURATION : Nat := 7200

/-- `self.cache_duration` (lines 63-66).  The source dict has entries only for
`videos` and `playlists`; `is_cache_valid` on the other two types would raise
KeyError and is never called with them, so their value here is arbitrary. -/
def cacheDuration : CacheType → Nat
  | .videos => 3600
  | .playlists => 7200
  | .channels => 0
  | .progress => 0

structure CacheState (α : Type) where
  cache : CacheType → List (String × α)
  lastUpdate : List (String × Nat)

/-- `get_cached_data` (lines 86-100): the entry is returned iff the key is in
the requested type's dict, the key is in `last_update`, and the age is below
the global `CACHE_DURATION` — the per-type TTL table plays no part here. -/
def getCachedData {α : Type} (s : CacheState α) (key : String) (ct : CacheType)
    (now : Nat) : Option α :=
  match lookupA (s.cache ct) key, lookupA s.lastUpdate key with
  | some v, some t => if now - t < CACHE_DURATION then some v else none
  | _, _ => none

/-- `update_cache` (lines 102-113): upsert the payload and stamp `last_update`
(the pickle save is file I/O and not modeled). -/
def updateCache {α : Type} (s : CacheState α) (key : String) (data : α)
    (ct : CacheType) (now : Nat) : CacheState α :=
  { cache := fun ct' => if ct' = ct then setA (s.cache ct') key data else s.cache ct',
    lastUpdate := setA s.lastUpdate key now }

/-- `is_cache_valid` (lines 115-121): age below the per-type TTL. -/
def isCacheValid {α : Type} (s : CacheState α) (key : String) (ct : CacheType)
    (now : Nat) : Bool :=
  match lookupA s.lastUpdate key with
  | none => false
  | some t => decide (now - t < cacheDuration ct)

/-! ### QuotaLedger and ExecutionStats (lines 172-311)

The only quota bookkeeping in the source is `ExecutionStats.add_quota_usage`
(lines 241-243), an unconditional `+=` into the `quota_usage` dict, whose five
fixed keys are modeled as the fields of `QuotaUsage`.  There is no `reserve`
operation and no ceiling constant anywhere in the source. -/

inductive QuotaOp where
  | search
  | video_details
  | playlist_items
  | add_video
  | delete_video
deriving DecidableEq

structure QuotaUsage where
  search : Nat
  video_details : Nat
  playlist_items : Nat
  add_video : Nat
  delete_video : Nat
deriving DecidableEq

/-- `self.stats['quota_usage']` initial dict (lines 183-189). -/
def initQuotaUsage : QuotaUsage := ⟨0, 0, 0, 0, 0⟩

/-- `add_quota_usage` (lines 241-243): `self.stats['quota_usage'][operation] += units`,
with no admission check of any kind. -/
def QuotaUsage.add (q : QuotaUsage) (op : QuotaOp) (units : Nat) : QuotaUsage :=
  match op with
  | .search => { q with search := q.search + units }
  | .video_details => { q with video_details := q.video_details + units }
  | .playlist_items => { q with playlist_items := q.playlist_items + units }
  | .add_video => { q with add_video := q.add_video + units }
  | .delete_video => { q with delete_video := q.delete_video + units }

/-- `sum(self.stats['quota_usage'].values())` (line 290). -/
def totalQuota (q : QuotaUsage) : Nat :=
  q.search + q.video_details + q.playlist_items + q.add_video + q.delete_video

/-- The `action` argument of `update_channel_stats` (only ever the strings
`'added'` and `'removed'`). -/
inductive StatAction where
  | added
  | removed
deriving DecidableEq

/-- Per-channel `{'added': _, 'removed': _}` counter update (lines 235-239). -/
def bumpChannel : List (String × (Nat × Nat)) → String → StatAction → List (String × (Nat × Nat))
  | [], ch, a =>
      [(ch, match a with | .added => (1, 0) | .removed => (0, 1))]
  | (k, (x, y)) :: t, ch, a =>
      if k = ch then
        (k, match a with | .added => (x + 1, y) | .removed => (x, y + 1)) :: t
      else (k, (x, y)) :: bumpChannel t ch a

/-- `ExecutionStats` (lines 172-248): the nested `self.stats` dicts and the
`self.totals` dict, flattened into one record. -/
structure ExecutionStats where
  added : List (String × Nat)
  removed : List (String × Nat)
  durationAdded : List (String × Nat)
  durationRemoved : List (String × Nat)
  playlistNames : List (String × String)
  quotaUsage : QuotaUsage
  quotaSaved : List (String × Nat)
  quotaSavedTotal : Nat
  videosFromRss : Nat
  videosFromApi : Nat
  failedRssFeeds : Nat
  channelStats : List (String × (Nat × Nat))
  videoOrigins : List (String × Nat)
  totalsVideosAdded : Nat
  totalsVideosRemoved : Nat
  totalsDurationAdded : Nat
  totalsDurationRemoved : Nat

/-- A freshly constructed `ExecutionStats` (lines 174-207). -/
def initStats : ExecutionStats :=
  { added := [], removed := [], durationAdded := [], durationRemoved := [],
    playlistNames := [], quotaUsage := initQuotaUsage,
    quotaSaved := [("search_operations", 0)], quotaSavedTotal := 0,
    videosFromRss := 0, videosFromApi := 0, failedRssFeeds := 0,
    channelStats := [], videoOrigins := [],
    totalsVideosAdded := 0, totalsVideosRemoved := 0,
    totalsDurationAdded := 0, totalsDurationRemoved := 0 }

/-- `add_video` (lines 213-218). -/
def ExecutionStats.addVideo (st : ExecutionStats) (pid : String) (dur : Nat) : ExecutionStats :=
  { st with added := bump st.added pid 1,
            durationAdded := bump st.durationAdded pid dur,
            totalsVideosAdded := st.totalsVideosAdded + 1,
            totalsDurationAdded := st.totalsDurationAdded + dur }

/-- `remove_video` (lines 220-233); a falsy `channel_name` becomes `'Unknown'`. -/
def ExecutionStats.removeVideo (st : ExecutionStats) (pid : String) (dur : Nat)
    (channelName : String) : ExecutionStats :=
  let ch := if channelName = "" then "Unknown" else channelName
  { st with removed := bump st.removed pid 1,
            durationRemoved := bump st.durationRemoved pid dur,
            totalsVideosRemoved := st.totalsVideosRemoved + 1,
            totalsDurationRemoved := st.totalsDurationRemoved + dur,
            videoOrigins := bump st.videoOrigins ch 1 }

/-- `update_channel_stats` (lines 235-239). -/
def ExecutionStats.updateChannel (st : ExecutionStats) (ch : String)
    (a : StatAction) : ExecutionStats :=
  { st with channelStats := bumpChannel st.channelStats ch a }

/-- `add_quota_usage` lifted to the stats record. -/
def ExecutionStats.addQuota (st : ExecutionStats) (op : QuotaOp) (units : Nat) : ExecutionStats :=
  { st with quotaUsage := st.quotaUsage.add op units }

/-- `add_quota_saved` (lines 245-248). -/
def ExecutionStats.addQuotaSaved (st : ExecutionStats) (opName : String)
    (amount : Nat) : ExecutionStats :=
  { st with quotaSaved := bump st.quotaSaved opName amount,
            quotaSavedTotal := st.quotaSavedTotal + amount }

/-- `set_playlist_name` (lines 209-211). -/
def ExecutionStats.setPlaylistName (st : ExecutionStats) (pid name : String) : ExecutionStats :=
  { st with playlistNames := setA st.playlistNames pid name }

/-! ### The run pipeline: YouTubeManager and main() (lines 314-1226)

The I/O boundaries are collected in `ApiEnv`:

* `research p t`   — `re.search(p, t, re.IGNORECASE)` (`none` = `re.error`);
* `rss`            — `self.rss_manager` (`none` = import failed, "modo solo
                     API"); when present, `feed ch` is the list of video ids
                     of the channel's RSS feed, newest first (a fetch/parse
                     failure yields `[]`, as `get_channel_feed` catches all
                     of its errors and returns `[]`);
* `videoDetails v` — a `videos().list(id=v)` lookup: `some d` on success,
                     `none` when the id is unknown or the request fails
                     (`_get_video_details` turns every failure into `None`);
* `search ch`      — `search().list(channelId=ch, ...)`: the discovered video
                     ids, or `Except.error ()` for an HTTP 403 quotaExceeded
                     response;
* `now`            — the wall clock, constant over one run.

Requests that the modeled scenarios never fail (`playlistItems().list`,
`playlistItems().insert`) are modeled as succeeding; their source handlers
swallow their errors per item.  The durable SQLite `videos` table
(database_manager.py lines 50-87) is `db`, keyed by video id; its
`cache_valid_until` expiry is not reached inside the modeled window, and the
reduced column set it returns preserves `id` and `contentDetails.duration`,
which are the only fields read from a cache hit, so hits return the stored
record unchanged. -/

structure ApiEnv where
  internet : Bool
  authOk : Bool
  now : Nat
  research : String → String → Option Bool
  rss : Option (String → List String)
  videoDetails : String → Option VideoDetails
  search : String → Except Unit (List String)

/-- State that survives from one run (process execution) to the next: the
SQLite `videos` table, the remote playlists (video ids per playlist id), and
the pickled `YouTubeCache.cache` dict.  `last_update` is in-memory only and
dies with the process (lines 60-79), so it is not part of the world. -/
structure World where
  db : List (String × VideoDetails)
  playlists : String → List String
  cacheFile : CacheType → List (String × List VideoDetails)

/-- Mutable state of one `YouTubeManager`, plus two observation trails:
`insertCalls` counts issued `playlistItems().insert` requests and
`searchAttempts` records each channel id for which a metered
`search().list` request was issued, in order. -/
structure MgrState where
  quota_exceeded : Bool
  stats : ExecutionStats
  db : List (String × VideoDetails)
  ytCache : CacheState (List VideoDetails)
  playlists : String → List String
  insertCalls : Nat
  searchAttempts : List String

/-- `YouTubeManager.__init__` (lines 317-328) against a given world: fresh
flag, fresh stats, cache dict loaded from the pickle file but with an empty
in-memory `last_update`. -/
def freshState (w : World) : MgrState :=
  { quota_exceeded := false, stats := initStats, db := w.db,
    ytCache := { cache := w.cacheFile, lastUpdate := [] },
    playlists := w.playlists, insertCalls := 0, searchAttempts := [] }

/-- `_get_video_details` (lines 717-748): durable-cache hit, else one metered
lookup (quota recorded before the request) which on success is written back to
the durable cache; every failure becomes `none`. -/
def getVideoDetails (env : ApiEnv) (s : MgrState) (vid : String) :
    MgrState × Option VideoDetails :=
  match lookupA s.db vid with
  | some v => (s, some v)
  | none =>
    let s := { s with stats := s.stats.addQuota .video_details 1 }
    match env.videoDetails vid with
    | some v => ({ s with db := setA s.db vid v }, some v)
    | none => (s, none)

/-- The RSS entry loop of `get_channel_videos` (lines 792-801): a durable-cache
hit is skipped (quota saved), otherwise the details are fetched (and thereby
cached) and appended in feed order. -/
def processRssEntries (env : ApiEnv) : MgrState → List String → List VideoDetails →
    MgrState × List VideoDetails
  | s, [], acc => (s, acc)
  | s, vid :: rest, acc =>
    match lookupA s.db vid with
    | some _ =>
        processRssEntries env { s with stats := s.stats.addQuotaSaved "video_details" 1 } rest acc
    | none =>
        match getVideoDetails env s vid with
        | (s, some v) => processRssEntries env s rest (acc ++ [v])
        | (s, none) => processRssEntries env s rest acc

/-- Number of detail batches for `n` ids, `range(0, n, 50)` (line 863). -/
def numBatches (n : Nat) : Nat := (n + 49) / 50

/-- The per-video loop of `_get_videos_via_api` (lines 873-883): durable-cache
hits pass straight through; the rest are filtered by `_video_matches_criteria`
and, when accepted, counted per channel and cached durably. -/
def processApiVideos (env : ApiEnv) (ch : ChannelConfig) :
    MgrState → List VideoDetails → List VideoDetails → MgrState × List VideoDetails
  | s, [], acc => (s, acc)
  | s, v :: rest, acc =>
    match lookupA s.db v.id with
    | some cached => processApiVideos env ch s rest (acc ++ [cached])
    | none =>
      if videoMatchesCriteria env.research (some v) ch then
        let s := { s with stats := s.stats.updateChannel ch.channel_name .added,
                          db := setA s.db v.id v }
        processApiVideos env ch s rest (acc ++ [v])
      else processApiVideos env ch s rest acc

/-- `_get_videos_via_api` (lines 823-897).  A valid, non-empty transient cache
entry is returned at once.  Otherwise the search quota (100 units) is recorded
and the paginated search is issued; an HTTP 403 quotaExceeded answer goes
through `_check_quota_error` (lines 899-906), which sets the `quota_exceeded`
flag and raises `QuotaExceededException` — the raised exception is the
`Except.error` result, with the flag already committed to the state. -/
def getVideosViaApi (env : ApiEnv) (s : MgrState) (ch : ChannelConfig) :
    MgrState × Except Unit (List VideoDetails) :=
  let hit : Option (List VideoDetails) :=
    if isCacheValid s.ytCache ch.channel_id .videos env.now then
      match getCachedData s.ytCache ch.channel_id .videos env.now with
      | some l => if l.isEmpty then none else some l
      | none => none
    else none
  match hit with
  | some l => (s, Except.ok l)
  | none =>
    let s := { s with stats := s.stats.addQuota .search 100,
                      searchAttempts := s.searchAttempts ++ [ch.channel_id] }
    match env.search ch.channel_id with
    | .error _ => ({ s with quota_exceeded := true }, Except.error ())
    | .ok ids =>
      let s := { s with stats := s.stats.addQuota .video_details (numBatches ids.length) }
      match processApiVideos env ch s (ids.filterMap env.videoDetails) [] with
      | (s, vids) =>
        ({ s with ytCache := updateCache s.ytCache ch.channel_id vids .videos env.now },
         Except.ok vids)

/-- The API fallback arm of `get_channel_videos` (lines 810-821): the RSS
failure counters are bumped, then `_get_videos_via_api` runs inside the
function's blanket `except Exception` handler, which swallows even
`QuotaExceededException` and returns `[]`. -/
def apiFallback (env : ApiEnv) (s : MgrState) (ch : ChannelConfig) :
    MgrState × List VideoDetails :=
  let s := { s with stats := { s.stats with
                failedRssFeeds := s.stats.failedRssFeeds + 1,
                videosFromApi := s.stats.videosFromApi + 1 } }
  match getVideosViaApi env s ch with
  | (s, Except.ok vs) => (s, vs)
  | (s, Except.error _) => (s, [])

/-- `get_channel_videos` (lines 778-821): with an RSS manager and a non-empty
feed, the RSS statistics are recorded and the entry loop's result is returned;
with no RSS manager, or an empty/failed feed, the API fallback runs. -/
def getChannelVideos (env : ApiEnv) (s : MgrState) (ch : ChannelConfig) :
    MgrState × List VideoDetails :=
  match env.rss with
  | some feed =>
    let entries := feed ch.channel_id
    if entries.isEmpty then apiFallback env s ch
    else
      let s := { s with stats := { s.stats with
                    videosFromRss := s.stats.videosFromRss + entries.length } }
      let s := { s with stats := s.stats.addQuotaSaved "search_operations" 100 }
      processRssEntries env s entries []
  | none => apiFallback env s ch

/-- `_get_playlist_items` (lines 950-979): the paginated membership fetch,
modeled as reading the remote playlist; one `playlist_items` quota unit is
recorded after the pagination loop.  Each item is reduced to its
`snippet.resourceId.videoId`, the only field the membership test reads. -/
def getPlaylistItems (s : MgrState) (pid : String) : MgrState × List String :=
  ({ s with stats := s.stats.addQuota .playlist_items 1 }, s.playlists pid)

/-- `_video_in_playlist` (lines 981-986). -/
def videoInPlaylist (vid : String) (items : List String) : Bool :=
  items.contains vid

/-- Tail of `_add_to_playlist` (lines 1005-1008): record the added video's
duration when its details and `contentDetails` could be obtained. -/
def addToPlaylistFinish (pid : String) : MgrState × Option VideoDetails → MgrState
  | (s, some v) =>
    match v.contentDetails with
    | some durStr => { s with stats := s.stats.addVideo pid (parseDuration durStr) }
    | none => s
  | (s, none) => s

/-- `_add_to_playlist` (lines 988-1015): the insert request (modeled as
succeeding; its errors are swallowed by the per-call handler), 50 quota units,
then the details fetch feeding `stats.add_video` when `contentDetails` is
present. -/
def addToPlaylist (env : ApiEnv) (s : MgrState) (pid vid : String) : MgrState :=
  let s := { s with
    playlists := fun p => if p = pid then s.playlists p ++ [vid] else s.playlists p,
    insertCalls := s.insertCalls + 1 }
  let s := { s with stats := s.stats.addQuota .add_video 50 }
  addToPlaylistFinish pid (getVideoDetails env s vid)

/-- The per-video loop of `manage_playlist` (lines 929-933): membership is
refetched before every candidate, and absent candidates are inserted. -/
def processVideosForChannel (env : ApiEnv) : MgrState → String → List VideoDetails → MgrState
  | s, _, [] => s
  | s, pid, v :: rest =>
    match getPlaylistItems s pid with
    | (s, items) =>
      let s := if videoInPlaylist v.id items then s else addToPlaylist env s pid v.id
      processVideosForChannel env s pid rest

/-- Python truthiness of an optional string (absent or `''` is falsy). -/
def truthy : Option String → Bool
  | none => false
  | some s => !s.isEmpty

/-- The playlist-name recording at lines 924-925 (`set_playlist_name` when
both `playlist_id` and `playlist_name` are truthy). -/
def recordName (s : MgrState) (ch : ChannelConfig) : MgrState :=
  if truthy ch.playlist_id && truthy ch.playlist_name then
    { s with stats := s.stats.setPlaylistName (ch.playlist_id.getD "")
                        (ch.playlist_name.getD "") }
  else s

/-- `manage_playlist` (lines 908-948): channels without a truthy
`playlist_id` are skipped; otherwise the playlist name is recorded, candidates
are fetched and reconciled.  The `except QuotaExceededException: break`
handler at lines 935-940 is unreachable: every call inside its `try` block —
`get_channel_videos` (815-821), `_get_playlist_items` (973-979) and
`_add_to_playlist` (1010-1015) — catches all of its exceptions internally, so
the loop always advances to the next channel. -/
def managePlaylist (env : ApiEnv) : MgrState → List ChannelConfig → MgrState
  | s, [] => s
  | s, ch :: rest =>
    if truthy ch.playlist_id then
      let s := recordName s ch
      match getChannelVideos env s ch with
      | (s, videos) =>
        let s := processVideosForChannel env s (ch.playlist_id.getD "") videos
        managePlaylist env s rest
    else managePlaylist env s rest

/-- Observable outcome of one `main()` invocation (lines 1171-1226).
`exitCode` is the process exit status (0 for a plain `return` from `main` or
a normal completion, the argument of `sys.exit` otherwise);
`cleanupEntered` records whether `cleanup_playlists` got past the combined
guards of line 1192 and lines 1019-1024 (the retention sweep's interior is not
examined by any claim and is not modeled, so `final` on that path is the
pre-sweep state). -/
structure RunResult where
  exitCode : Nat
  authRan : Bool
  syncRan : Bool
  cleanupEntered : Bool
  summaryEmitted : Bool
  diagnosticEmitted : Bool
  final : MgrState

/-- `main()` (lines 1171-1226).  No connectivity: an error is logged and
`main` plainly returns (lines 1176-1182) — no `sys.exit` on this path.
Authentication failure raises and is caught by the generic handler (lines
1220-1226), `sys.exit(1)`.  Otherwise `manage_playlist` runs (its
`QuotaExceededException` is passed over at line 1189-1190), the sweep is
gated on the `quota_exceeded` flag (line 1192), and the summary is always
generated and sent (lines 1195-1199). -/
def mainRun (env : ApiEnv) (w : World) (cfg : List ChannelConfig) : RunResult :=
  let s := freshState w
  if !env.internet then
    { exitCode := 0, authRan := false, syncRan := false, cleanupEntered := false,
      summaryEmitted := false, diagnosticEmitted := true, final := s }
  else if !env.authOk then
    { exitCode := 1, authRan := true, syncRan := false, cleanupEntered := false,
      summaryEmitted := false, diagnosticEmitted := true, final := s }
  else
    let s := managePlaylist env s cfg
    { exitCode := 0, authRan := true, syncRan := true,
      cleanupEntered := !s.quota_exceeded, summaryEmitted := true,
      diagnosticEmitted := false, final := s }

/-! ### Supporting lemmas for the duration round-trip -/

theorem digitChar_isDigit (d : Nat) (h : d < 10) : (Nat.digitChar d).isDigit = true := by
  interval_cases d <;> decide

theorem digitChar_val (d : Nat) (h : d < 10) : (Nat.digitChar d).toNat - 48 = d := by
  interval_cases d <;> decide

theorem natDigits_ne_nil (n : Nat) : natDigits n ≠ [] := by
  rw [natDigits.eq_def]
  split
  · simp
  · simp

theorem natDigits_digits (n : Nat) : ∀ c ∈ natDigits n, Char.isDigit c = true := by
  induction n using Nat.strong_induction_on with
  | _ n ih =>
    rw [natDigits.eq_def]
    split
    · next h =>
      intro c hc
      rw [List.mem_singleton] at hc
      subst hc
      exact digitChar_isDigit n h
    · next h =>
      intro c hc
      rw [List.mem_append] at hc
      cases hc with
      | inl h2 => exact ih (n / 10) (Nat.div_lt_self (by omega) (by omega)) c h2
      | inr h2 =>
        rw [List.mem_singleton] at h2
        subst h2
        exact digitChar_isDigit _ (Nat.mod_lt _ (by omega))

theorem digitsVal_append_one (l : List Char) (c : Char) :
    digitsVal (l ++ [c]) = digitsVal l * 10 + (c.toNat - 48) := by
  simp [digitsVal, List.foldl_append]

theorem digitsVal_natDigits (n : Nat) : digitsVal (natDigits n) = n := by
  induction n using Nat.strong_induction_on with
  | _ n ih =>
    rw [natDigits.eq_def]
    split
    · next h =>
      simp only [digitsVal, List.foldl_cons, List.foldl_nil, Nat.zero_mul, Nat.zero_add]
      exact digitChar_val n h
    · next h =>
      rw [digitsVal_append_one, ih (n / 10) (Nat.div_lt_self (by omega) (by omega)),
          digitChar_val (n % 10) (Nat.mod_lt _ (by omega))]
      omega

theorem span_digits_append (l r : List Char) (c : Char)
    (hl : ∀ x ∈ l, Char.isDigit x = true) (hc : Char.isDigit c = false) :
    List.span Char.isDigit (l ++ c :: r) = (l, c :: r) := by
  induction l with
  | nil =>
    rw [List.span_eq_take_drop]
    simp [List.takeWhile, List.dropWhile, hc]
  | cons a t ih =>
    have ha : Char.isDigit a = true := hl a (by simp)
    have ht : ∀ x ∈ t, Char.isDigit x = true := fun x hx => hl x (by simp [hx])
    have ihr := ih ht
    rw [List.span_eq_take_drop] at ihr ⊢
    simp only [List.cons_append, List.takeWhile_cons, List.dropWhile_cons, ha]
    simp only [Prod.mk.injEq] at ihr
    simp [ihr.1, ihr.2]

theorem parseGroup_exact (n : Nat) (c : Char) (r : List Char)
    (hc : Char.isDigit c = false) :
    parseGroup (natDigits n ++ c :: r) c = (some n, r) := by
  unfold parseGroup
  rw [span_digits_append _ _ _ (natDigits_digits n) hc]
  simp [natDigits_ne_nil n, digitsVal_natDigits n]

/-- Claim C7: formatting any duration through the DurationCodec and re-parsing
the result yields the duration back exactly, in seconds.  The parser is the
source `_parse_duration`; the exact formatter direction is absent from the
repository and `encodeDuration` is modelled from the spec (the lossy
hours/minutes `format_duration` display is excluded by the claim itself). -/
theorem duration_roundtrip (d : Nat) : parseDuration (encodeDuration d) = d := by
  have hH : Char.isDigit 'H' = false := by decide
  have hM : Char.isDigit 'M' = false := by decide
  have hS : Char.isDigit 'S' = false := by decide
  have h1 := parseGroup_exact (d / 3600) 'H'
    (natDigits (d % 3600 / 60) ++ 'M' :: (natDigits (d % 60) ++ ['S'])) hH
  have h2 := parseGroup_exact (d % 3600 / 60) 'M' (natDigits (d % 60) ++ ['S']) hM
  have h3 := parseGroup_exact (d % 60) 'S' [] hS
  show (let hg := parseGroup
          (natDigits (d / 3600) ++ 'H' ::
            (natDigits (d % 3600 / 60) ++ 'M' :: (natDigits (d % 60) ++ ['S']))) 'H'
        let mg := parseGroup hg.2 'M'
        let sg := parseGroup mg.2 'S'
        hg.1.getD 0 * 3600 + mg.1.getD 0 * 60 + sg.1.getD 0) = d
  rw [h1]
  simp only []
  rw [h2]
  simp only []
  rw [h3]
  simp only [Option.getD_some]
  omega

/-! ### Claim C1 — quota accounting has no admission control -/

/-- A session consisting of `n` recorded search operations of 100 units each
(the cost `_get_videos_via_api` records per channel at line 837). -/
def repeatSearchRecord : Nat → ExecutionStats → ExecutionStats
  | 0, st => st
  | n + 1, st => repeatSearchRecord n (st.addQuota .search 100)

/-- Recording is unconditional: `add_quota_usage` always commits the full
amount, whatever the current total — there is no ceiling test and no failure
outcome anywhere in the ledger. -/
theorem add_quota_usage_unconditional (q : QuotaUsage) (op : QuotaOp) (units : Nat) :
    totalQuota (q.add op units) = totalQuota q + units := by
  cases op <;> simp [QuotaUsage.add, totalQuota] <;> omega

/-- Claim C1: the sum of committed quota units never exceeds the configured
ceiling, because `reserve` atomically rejects any request that would cross it.
The code has no such operation: its only ledger write, `add_quota_usage`
(lines 241-243), adds unconditionally, and after 101 recorded search
operations the committed total is 10,100, beyond the 10,000-unit ceiling the
spec names — every one of those operations "succeeded" and mutated state. -/
theorem add_quota_usage_exceeds_ceiling :
    totalQuota (repeatSearchRecord 101 initStats).quotaUsage = 10100 ∧
    10000 < totalQuota (repeatSearchRecord 101 initStats).quotaUsage := by
  constructor <;> decide

/-! ### Claim C10 — totals stay consistent with the per-playlist breakdown -/

theorem sumVals_bump (l : List (String × Nat)) (k : String) (n : Nat) :
    sumVals (bump l k n) = sumVals l + n := by
  induction l with
  | nil => simp [bump, sumVals]
  | cons p t ih =>
    obtain ⟨k', v⟩ := p
    by_cases h : k' = k
    · simp [bump, h, sumVals]
      omega
    · simp [bump, h, sumVals] at ih ⊢
      omega

/-- One call of the public recording interface of `ExecutionStats`. -/
inductive StatsOp where
  | add (pid : String) (dur : Nat)
  | remove (pid : String) (dur : Nat) (channel : String)

def applyStatsOps : ExecutionStats → List StatsOp → ExecutionStats
  | st, [] => st
  | st, .add pid dur :: rest => applyStatsOps (st.addVideo pid dur) rest
  | st, .remove pid dur ch :: rest => applyStatsOps (st.removeVideo pid dur ch) rest

/-- The four aggregate totals agree with the per-playlist dictionaries. -/
def statsConsistent (st : ExecutionStats) : Prop :=
  st.totalsVideosAdded = sumVals st.added ∧
  st.totalsDurationAdded = sumVals st.durationAdded ∧
  st.totalsVideosRemoved = sumVals st.removed ∧
  st.totalsDurationRemoved = sumVals st.durationRemoved

theorem statsConsistent_addVideo {st : ExecutionStats} (h : statsConsistent st)
    (pid : String) (dur : Nat) : statsConsistent (st.addVideo pid dur) := by
  obtain ⟨h1, h2, h3, h4⟩ := h
  refine ⟨?_, ?_, ?_, ?_⟩ <;>
    simp [ExecutionStats.addVideo, sumVals_bump, h1, h2, h3, h4]

theorem statsConsistent_removeVideo {st : ExecutionStats} (h : statsConsistent st)
    (pid : String) (dur : Nat) (ch : String) :
    statsConsistent (st.removeVideo pid dur ch) := by
  obtain ⟨h1, h2, h3, h4⟩ := h
  refine ⟨?_, ?_, ?_, ?_⟩ <;>
    simp [ExecutionStats.removeVideo, sumVals_bump, h1, h2, h3, h4]

theorem statsConsistent_apply {st : ExecutionStats} (h : statsConsistent st)
    (ops : List StatsOp) : statsConsistent (applyStatsOps st ops) := by
  induction ops generalizing st with
  | nil => exact h
  | cons op rest ih =>
    cases op with
    | add pid dur => exact ih (statsConsistent_addVideo h pid dur)
    | remove pid dur ch => exact ih (statsConsistent_removeVideo h pid dur ch)

/-- Claim C10: after any sequence of `add_video` and `remove_video` calls on a
freshly constructed `ExecutionStats`, `totals['videos_added']` equals the sum
over all playlists of `stats['added']`, `totals['duration_added']` the sum of
`stats['duration']['added']`, and likewise for the two removal totals. -/
theorem stats_totals_consistent (ops : List StatsOp) :
    statsConsistent (applyStatsOps initStats ops) :=
  statsConsistent_apply (by simp [statsConsistent, initStats, sumVals]) ops

/-! ### Claim C3 — the cache TTL actually used by `get_cached_data` -/

/-- A cache holding one video entry inserted at time 0 with payload 42. -/
def c3State : CacheState Nat :=
  updateCache { cache := fun _ => [], lastUpdate := [] } "chan42" 42 CacheType.videos 0

/-- Claim C3 counterexample: the claim says a get returns the payload iff the
age is below the TTL configured for the entry's type — 3600 seconds for video
metadata.  At age 5000 the video entry's per-type TTL has long elapsed, yet
`get_cached_data` still returns the payload, because it compares against the
global `CACHE_DURATION = 7200` (line 97) and never consults the per-type
table. -/
theorem get_cached_data_ignores_per_type_ttl :
    ¬ (getCachedData c3State "chan42" CacheType.videos 5000 = some 42 ↔
        5000 - 0 < cacheDuration CacheType.videos) := by
  decide

theorem lookupA_setA_self {α : Type} (l : List (String × α)) (k : String) (v : α) :
    lookupA (setA l k v) k = some v := by
  induction l with
  | nil => simp [setA, lookupA]
  | cons p t ih =>
    obtain ⟨k', w⟩ := p
    by_cases h : k' = k <;> simp [setA, lookupA, h, ih]

/-- Claim C3 as amended: `get_cached_data` returns the stored payload iff the
key is present in the requested type's dict and in `last_update`, and the age
is below the single global `CACHE_DURATION` of 7200 seconds — the per-type
TTLs (3600 for videos, 7200 for playlists) are consulted only by
`is_cache_valid`.  Consequently a put followed by a get returns the exact
stored payload while the age is below 7200 and absent from then on, whatever
the payload. -/
theorem get_cached_data_global_ttl_spec :
    (∀ (α : Type) (s : CacheState α) (key : String) (ct : CacheType) (now : Nat) (v : α),
       getCachedData s key ct now = some v ↔
         lookupA (s.cache ct) key = some v ∧
         ∃ t, lookupA s.lastUpdate key = some t ∧ now - t < CACHE_DURATION) ∧
    (∀ (α : Type) (s : CacheState α) (key : String) (ct : CacheType) (tPut now : Nat) (v : α),
       getCachedData (updateCache s key v ct tPut) key ct now =
         if now - tPut < CACHE_DURATION then some v else none) := by
  constructor
  · intro α s key ct now v
    unfold getCachedData
    cases h1 : lookupA (s.cache ct) key <;> cases h2 : lookupA s.lastUpdate key <;> simp
    exact and_comm
  · intro α s key ct tPut now v
    unfold getCachedData updateCache
    simp [lookupA_setA_self]

/-! ### Claim C4 — the Shorts classifier is a 3-of-4 majority vote -/

/-- Realization of indicator (a): the marker token in the description. -/
def descFor : Bool → String
  | true => "new weekly clip #shorts"
  | false => "a plain description"

/-- Realization of indicator (b): the marker token in the title (upper case,
to exercise the lowering). -/
def titleFor : Bool → String
  | true => "Quick Cut #SHORTS"
  | false => "Quick Cut"

/-- Realization of indicator (c): duration at most 60 seconds. -/
def durFor : Bool → Nat
  | true => 45
  | false => 2000

/-- Realization of indicator (d): default thumbnail taller than wide. -/
def thumbFor : Bool → Option (Nat × Nat)
  | true => some (90, 160)
  | false => some (320, 180)

def mkSnippet (a b d : Bool) : Snippet :=
  { title := titleFor b, description := descFor a, thumbnails := some (thumbFor d) }

/-- Number of the four indicators that fire. -/
def boolCount (a b c d : Bool) : Nat := a.toNat + b.toNat + c.toNat + d.toNat

/-- Claim C4: across all 16 combinations of the four boolean indicators, the
classifier declares a video short-form iff at least 3 of the 4 fire, and the
decision is monotonic in the count (k of the enumerated combinations at least
3 gives short, below 3 gives not short). -/
theorem short_form_majority_vote (a b c d : Bool) :
    isShortForm (mkSnippet a b d) (durFor c) (thumbFor d) =
      decide (3 ≤ boolCount a b c d) := by
  cases a <;> cases b <;> cases c <;> cases d <;> decide

/-! ### Claims C5 and C9 — the acceptance pipeline of `_video_matches_criteria` -/

/-- Claim C5: for a video carrying the full API payload (snippet with
thumbnails, and contentDetails), the decision short-circuits to rejection the
moment the configured title pattern fails its case-insensitive search, and
otherwise accepts exactly when the parsed duration is inside
`[min_duration, max_duration]` (both inclusive, the absent maximum being
infinity) and the Shorts classifier says no — the three checks in that
order. -/
theorem video_matches_criteria_order (research : String → String → Option Bool)
    (v : VideoDetails) (cfg : ChannelConfig) (sn : Snippet) (durStr : String)
    (thumb : Option (Nat × Nat)) (h1 : v.snippet = some sn)
    (h2 : v.contentDetails = some durStr) (h3 : sn.thumbnails = some thumb) :
    (titleGate research cfg sn.title = false →
       videoMatchesCriteria research (some v) cfg = false) ∧
    (videoMatchesCriteria research (some v) cfg = true ↔
       titleGate research cfg sn.title = true ∧
       (cfg.min_duration ≤ parseDuration durStr ∧
         durLe (parseDuration durStr) cfg.max_duration = true) ∧
       isShortForm sn (parseDuration durStr) thumb = false) := by
  constructor
  · intro hg
    simp [videoMatchesCriteria, h1, hg]
  · simp only [videoMatchesCriteria, h1, h2, h3]
    cases hg : titleGate research cfg sn.title
    · simp
    · simp only [if_true]
      by_cases hd : cfg.min_duration ≤ parseDuration durStr ∧
          durLe (parseDuration durStr) cfg.max_duration = true
      · simp only [hd, if_true]
        cases hs : isShortForm sn (parseDuration durStr) thumb <;> simp [hd]
      · simp [hd]

def c5Research : String → String → Option Bool :=
  fun pat title => some (containsSub (lowerL title.data) (lowerL pat.data))

def c5Video : VideoDetails :=
  { id := "v5",
    snippet := some { title := "Weekly Review EP5", description := "full episode",
                      thumbnails := some (some (320, 180)) },
    contentDetails := some "PT10M" }

def c5Cfg : ChannelConfig :=
  { channel_id := "c5", channel_name := "Chan Five", playlist_id := some "P5",
    playlist_name := some "List Five", title_pattern := some "weekly review",
    min_duration := 120, max_duration := some 1200 }

theorem video_matches_criteria_order_witness :
    (titleGate c5Research c5Cfg "Weekly Review EP5" = false →
       videoMatchesCriteria c5Research (some c5Video) c5Cfg = false) ∧
    (videoMatchesCriteria c5Research (some c5Video) c5Cfg = true ↔
       titleGate c5Research c5Cfg "Weekly Review EP5" = true ∧
       (c5Cfg.min_duration ≤ parseDuration "PT10M" ∧
         durLe (parseDuration "PT10M") c5Cfg.max_duration = true) ∧
       isShortForm { title := "Weekly Review EP5", description := "full episode",
                     thumbnails := some (some (320, 180)) }
         (parseDuration "PT10M") (some (320, 180)) = false) :=
  video_matches_criteria_order c5Research c5Video c5Cfg _ "PT10M" (some (320, 180)) rfl rfl rfl

/-- Claim C9: when the video's details carry no `contentDetails` field, the
whole duration-and-Shorts block (lines 641-680) is skipped, so the decision
equals the title-gate outcome alone — such a video is accepted whenever the
pattern check passes, whatever duration limits the channel configures. -/
theorem missing_content_details_accepted (research : String → String → Option Bool)
    (v : VideoDetails) (cfg : ChannelConfig) (sn : Snippet)
    (h1 : v.snippet = some sn) (h2 : v.contentDetails = none) :
    videoMatchesCriteria research (some v) cfg = titleGate research cfg sn.title := by
  simp only [videoMatchesCriteria, h1, h2]
  cases hg : titleGate research cfg sn.title <;> simp

def c9Research : String → String → Option Bool := fun _ _ => some true

/-- A video with no duration information at all. -/
def c9Video : VideoDetails :=
  { id := "v9",
    snippet := some { title := "Nine", description := "",
                      thumbnails := some (some (320, 180)) },
    contentDetails := none }

/-- A channel demanding durations between 100 and 200 seconds. -/
def c9Cfg : ChannelConfig :=
  { channel_id := "c9", channel_name := "Chan Nine", playlist_id := some "P9",
    playlist_name := some "List Nine", title_pattern := none,
    min_duration := 100, max_duration := some 200 }

theorem missing_content_details_accepted_witness :
    videoMatchesCriteria c9Research (some c9Video) c9Cfg = true :=
  (missing_content_details_accepted c9Research c9Video c9Cfg _ rfl rfl).trans rfl

/-! ### Claim C8 — the no-connectivity abort path -/

def c8Env : ApiEnv :=
  { internet := false, authOk := true, now := 0, research := fun _ _ => some true,
    rss := none, videoDetails := fun _ => none, search := fun _ => Except.ok [] }

def c8World : World :=
  { db := [], playlists := fun _ => [], cacheFile := fun _ => [] }

/-- Claim C8 counterexample: with no connectivity detected at startup, `main`
logs the diagnostic and plainly returns (lines 1176-1182) — unlike the quota,
token and generic error paths there is no `sys.exit(1)` here, so the process
exit status is 0, not the non-zero exit the claim requires. -/
theorem no_connectivity_exit_code_zero :
    (mainRun c8Env c8World []).exitCode = 0 ∧
    (mainRun c8Env c8World []).diagnosticEmitted = true :=
  ⟨rfl, rfl⟩

/-- Claim C8 as amended: with no connectivity at startup the run aborts
immediately — no authentication, no sync pass, no retention sweep, the
manager state untouched — after emitting the final diagnostic, but the
process then returns from `main` normally and exits with status 0, not with
a non-zero code. -/
theorem no_connectivity_aborts (env : ApiEnv) (w : World) (cfg : List ChannelConfig)
    (h : env.internet = false) :
    mainRun env w cfg =
      { exitCode := 0, authRan := false, syncRan := false, cleanupEntered := false,
        summaryEmitted := false, diagnosticEmitted := true, final := freshState w } := by
  simp [mainRun, h]

theorem no_connectivity_aborts_witness :
    mainRun c8Env c8World [] =
      { exitCode := 0, authRan := false, syncRan := false, cleanupEntered := false,
        summaryEmitted := false, diagnosticEmitted := true, final := freshState c8World } :=
  no_connectivity_aborts c8Env c8World [] rfl

/-! ### Claim C2 — what actually happens after the quota flag trips

Scenario: API-only mode (the RSS manager failed to import), three configured
channels.  Channel 1's search succeeds with one fresh video; from channel 2 on
every search request is answered with HTTP 403 quotaExceeded. -/

def c2Video : VideoDetails :=
  { id := "v1",
    snippet := some { title := "First upload", description := "weekly devlog",
                      thumbnails := some (some (320, 180)) },
    contentDetails := some "PT5M" }

def c2Cfg : List ChannelConfig :=
  [{ channel_id := "ch1", channel_name := "Channel One", playlist_id := some "P1",
     playlist_name := some "List One", title_pattern := none,
     min_duration := 0, max_duration := none },
   { channel_id := "ch2", channel_name := "Channel Two", playlist_id := some "P2",
     playlist_name := some "List Two", title_pattern := none,
     min_duration := 0, max_duration := none },
   { channel_id := "ch3", channel_name := "Channel Three", playlist_id := some "P3",
     playlist_name := some "List Three", title_pattern := none,
     min_duration := 0, max_duration := none }]

def c2Env : ApiEnv :=
  { internet := true, authOk := true, now := 0, research := fun _ _ => some true,
    rss := none,
    videoDetails := fun vid => if vid = "v1" then some c2Video else none,
    search := fun chId => if chId = "ch1" then Except.ok ["v1"] else Except.error () }

def c2World : World :=
  { db := [], playlists := fun _ => [], cacheFile := fun _ => [] }

def c2Run : RunResult := mainRun c2Env c2World c2Cfg

/-- Claim C2, settled against the code: the quota flag trips during channel 2,
the retention sweep is indeed skipped and the summary still carries channel
1's statistics — but channel 3 is *not* spared.  `_check_quota_error` sets the
flag and raises, yet `get_channel_videos` swallows the exception and returns
`[]`, so `manage_playlist`'s `except QuotaExceededException: break` never
fires and channel 3's metered search is still attempted: the search trail is
`[ch1, ch2, ch3]` and 300 units of search quota are recorded, 100 of them
after exhaustion. -/
theorem quota_flag_does_not_stop_remaining_channels :
    c2Run.final.quota_exceeded = true ∧
    c2Run.final.searchAttempts = ["ch1", "ch2", "ch3"] ∧
    c2Run.final.stats.quotaUsage.search = 300 ∧
    c2Run.cleanupEntered = false ∧
    c2Run.summaryEmitted = true ∧
    lookupA c2Run.final.stats.added "P1" = some 1 ∧
    lookupA c2Run.final.stats.durationAdded "P1" = some 300 ∧
    c2Run.final.insertCalls = 1 := by
  decide

/-! ### Claim C6 — a second identical run performs zero inserts

Supporting notion: membership in the durable video cache, which only ever
grows during a run (`cache_video` is an upsert, nothing deletes). -/

def dbHas (s : MgrState) (vid : String) : Prop := (lookupA s.db vid).isSome = true

/-- Every key present before a state transformation is still present after. -/
def dbExtends (s s' : MgrState) : Prop := ∀ x, dbHas s x → dbHas s' x

theorem dbExtends_refl (s : MgrState) : dbExtends s s := fun _ h => h

theorem dbExtends_trans {s1 s2 s3 : MgrState} (h1 : dbExtends s1 s2)
    (h2 : dbExtends s2 s3) : dbExtends s1 s3 := fun x h => h2 x (h1 x h)

theorem lookupA_setA_isSome {α : Type} (l : List (String × α)) (k k2 : String) (v : α)
    (h : (lookupA l k).isSome = true) : (lookupA (setA l k2 v) k).isSome = true := by
  induction l with
  | nil => simp [lookupA] at h
  | cons p t ih =>
    obtain ⟨k', w⟩ := p
    by_cases hk : k' = k2
    · subst hk
      simp only [setA, if_pos rfl]
      by_cases h2 : k' = k
      · simp [lookupA, h2]
      · simp only [lookupA, if_neg h2] at h ⊢
        exact h
    · simp only [setA, if_neg hk]
      by_cases h2 : k' = k
      · simp [lookupA, h2]
      · simp only [lookupA, if_neg h2] at h ⊢
        exact ih h

theorem getVideoDetails_extends (env : ApiEnv) (s : MgrState) (vid : String) :
    dbExtends s (getVideoDetails env s vid).1 := by
  intro x hx
  cases h1 : lookupA s.db vid with
  | some w => simpa [getVideoDetails, h1, dbHas] using hx
  | none =>
    cases h2 : env.videoDetails vid with
    | some w =>
      simp only [getVideoDetails, h1, h2, dbHas]
      exact lookupA_setA_isSome s.db x vid w hx
    | none => simpa [getVideoDetails, h1, h2, dbHas] using hx

theorem getVideoDetails_self (env : ApiEnv) (s : MgrState) (vid : String)
    (h : (env.videoDetails vid).isSome = true ∨ dbHas s vid) :
    dbHas (getVideoDetails env s vid).1 vid := by
  cases h1 : lookupA s.db vid with
  | some w => simp [getVideoDetails, h1, dbHas]
  | none =>
    cases h2 : env.videoDetails vid with
    | some w => simp [getVideoDetails, h1, h2, dbHas, lookupA_setA_self]
    | none =>
      cases h with
      | inl h3 => rw [h2] at h3; simp at h3
      | inr h3 => rw [dbHas, h1] at h3; simp at h3

theorem processRssEntries_extends (env : ApiEnv) :
    ∀ (entries : List String) (s : MgrState) (acc : List VideoDetails),
      dbExtends s (processRssEntries env s entries acc).1 := by
  intro entries
  induction entries with
  | nil => intro s acc; exact dbExtends_refl s
  | cons vid rest ih =>
    intro s acc
    cases h1 : lookupA s.db vid with
    | some w =>
      simp only [processRssEntries, h1]
      exact fun x hx =>
        ih { s with stats := s.stats.addQuotaSaved "video_details" 1 } acc x hx
    | none =>
      rcases h2 : getVideoDetails env s vid with ⟨s2, d⟩
      have hext : dbExtends s s2 := by
        have h3 := getVideoDetails_extends env s vid
        rw [h2] at h3
        exact h3
      cases d with
      | some v =>
        simp only [processRssEntries, h1, h2]
        exact dbExtends_trans hext (ih _ _)
      | none =>
        simp only [processRssEntries, h1, h2]
        exact dbExtends_trans hext (ih _ _)

theorem processRssEntries_covers (env : ApiEnv) :
    ∀ (entries : List String) (s : MgrState) (acc : List VideoDetails) (vid : String),
      vid ∈ entries → (env.videoDetails vid).isSome = true →
      dbHas (processRssEntries env s entries acc).1 vid := by
  intro entries
  induction entries with
  | nil => intro s acc vid hm; simp at hm
  | cons v0 rest ih =>
    intro s acc vid hm henv
    rcases List.mem_cons.mp hm with rfl | hmem
    · cases h1 : lookupA s.db vid with
      | some w =>
        simp only [processRssEntries, h1]
        exact processRssEntries_extends env rest _ acc vid (by simp [dbHas, h1])
      | none =>
        rcases h2 : getVideoDetails env s vid with ⟨s2, d⟩
        have hself : dbHas s2 vid := by
          have h3 := getVideoDetails_self env s vid (Or.inl henv)
          rw [h2] at h3
          exact h3
        cases d with
        | some v =>
          simp only [processRssEntries, h1, h2]
          exact processRssEntries_extends env rest _ _ vid hself
        | none =>
          simp only [processRssEntries, h1, h2]
          exact processRssEntries_extends env rest _ _ vid hself
    · cases h1 : lookupA s.db v0 with
      | some w =>
        simp only [processRssEntries, h1]
        exact ih _ _ vid hmem henv
      | none =>
        rcases h2 : getVideoDetails env s v0 with ⟨s2, d⟩
        cases d with
        | some v =>
          simp only [processRssEntries, h1, h2]
          exact ih _ _ vid hmem henv
        | none =>
          simp only [processRssEntries, h1, h2]
          exact ih _ _ vid hmem henv

theorem addToPlaylistFinish_extends (pid : String) (r : MgrState × Option VideoDetails) :
    dbExtends r.1 (addToPlaylistFinish pid r) := by
  rcases r with ⟨s, d⟩
  cases d with
  | some v =>
    cases hv : v.contentDetails with
    | some durStr => simpa [addToPlaylistFinish, hv] using dbExtends_refl s
    | none => simpa [addToPlaylistFinish, hv] using dbExtends_refl s
  | none => exact dbExtends_refl s

theorem addToPlaylist_extends (env : ApiEnv) (s : MgrState) (pid vid : String) :
    dbExtends s (addToPlaylist env s pid vid) := by
  intro x hx
  unfold addToPlaylist
  refine addToPlaylistFinish_extends pid _ x ?_
  exact getVideoDetails_extends env _ vid x hx

theorem processVideosForChannel_extends (env : ApiEnv) :
    ∀ (vs : List VideoDetails) (s : MgrState) (pid : String),
      dbExtends s (processVideosForChannel env s pid vs) := by
  intro vs
  induction vs with
  | nil => intro s pid; exact dbExtends_refl s
  | cons v rest ih =>
    intro s pid
    simp only [processVideosForChannel, getPlaylistItems]
    by_cases hm : videoInPlaylist v.id (s.playlists pid)
    · simp only [hm, if_true]
      exact fun x hx => ih _ pid x hx
    · simp only [hm, if_false]
      intro x hx
      refine ih _ pid x ?_
      exact addToPlaylist_extends env _ pid v.id x hx

theorem recordName_db (s : MgrState) (ch : ChannelConfig) : (recordName s ch).db = s.db := by
  unfold recordName
  split <;> rfl

theorem recordName_insertCalls (s : MgrState) (ch : ChannelConfig) :
    (recordName s ch).insertCalls = s.insertCalls := by
  unfold recordName
  split <;> rfl

theorem recordName_extends (s : MgrState) (ch : ChannelConfig) :
    dbExtends s (recordName s ch) := by
  intro x hx
  rw [dbHas, recordName_db]
  exact hx

theorem getChannelVideos_rss_extends (env : ApiEnv) (s : MgrState) (ch : ChannelConfig)
    (feed : String → List String) (hrss : env.rss = some feed)
    (hne : feed ch.channel_id ≠ []) :
    dbExtends s (getChannelVideos env s ch).1 := by
  have hne' : (feed ch.channel_id).isEmpty = false := by
    cases hf : feed ch.channel_id with
    | nil => exact absurd hf hne
    | cons a t => rfl
  simp only [getChannelVideos, hrss, hne', Bool.false_eq_true, if_false]
  exact fun x hx => processRssEntries_extends env (feed ch.channel_id) _ [] x hx

theorem getChannelVideos_rss_covers (env : ApiEnv) (s : MgrState) (ch : ChannelConfig)
    (feed : String → List String) (hrss : env.rss = some feed)
    (hne : feed ch.channel_id ≠ []) (vid : String) (hm : vid ∈ feed ch.channel_id)
    (henv : (env.videoDetails vid).isSome = true) :
    dbHas (getChannelVideos env s ch).1 vid := by
  have hne' : (feed ch.channel_id).isEmpty = false := by
    cases hf : feed ch.channel_id with
    | nil => exact absurd hf hne
    | cons a t => rfl
  simp only [getChannelVideos, hrss, hne', Bool.false_eq_true, if_false]
  exact processRssEntries_covers env (feed ch.channel_id) _ [] vid hm henv

theorem managePlaylist_extends (env : ApiEnv) (feed : String → List String)
    (hrss : env.rss = some feed) :
    ∀ (cfgL : List ChannelConfig), (∀ ch ∈ cfgL, feed ch.channel_id ≠ []) →
      ∀ s : MgrState, dbExtends s (managePlaylist env s cfgL) := by
  intro cfgL
  induction cfgL with
  | nil => intro _ s; exact dbExtends_refl s
  | cons ch0 rest ih =>
    intro hne s
    have hne0 : feed ch0.channel_id ≠ [] := hne ch0 (List.mem_cons_self ch0 rest)
    have hner : ∀ c ∈ rest, feed c.channel_id ≠ [] :=
      fun c hc => hne c (List.mem_cons_of_mem ch0 hc)
    by_cases htr : truthy ch0.playlist_id = true
    · simp only [managePlaylist, htr, if_true]
      rcases hgc : getChannelVideos env (recordName s ch0) ch0 with ⟨s2, videos⟩
      simp only [hgc]
      have e1 : dbExtends s s2 := by
        have h3 := getChannelVideos_rss_extends env (recordName s ch0) ch0 feed hrss hne0
        rw [hgc] at h3
        exact dbExtends_trans (recordName_extends s ch0) h3
      exact dbExtends_trans (dbExtends_trans e1
        (processVideosForChannel_extends env videos s2 (ch0.playlist_id.getD "")))
        (ih hner _)
    · simp only [managePlaylist]
      rw [if_neg htr]
      exact ih hner s

theorem managePlaylist_covers (env : ApiEnv) (feed : String → List String)
    (hrss : env.rss = some feed) :
    ∀ (cfgL : List ChannelConfig), (∀ ch ∈ cfgL, feed ch.channel_id ≠ []) →
      ∀ (s : MgrState) (ch : ChannelConfig), ch ∈ cfgL → truthy ch.playlist_id = true →
      ∀ vid ∈ feed ch.channel_id, (env.videoDetails vid).isSome = true →
      dbHas (managePlaylist env s cfgL) vid := by
  intro cfgL
  induction cfgL with
  | nil => intro _ s ch hm; simp at hm
  | cons ch0 rest ih =>
    intro hne s ch hm htrch vid hvid henv
    have hne0 : feed ch0.channel_id ≠ [] := hne ch0 (List.mem_cons_self ch0 rest)
    have hner : ∀ c ∈ rest, feed c.channel_id ≠ [] :=
      fun c hc => hne c (List.mem_cons_of_mem ch0 hc)
    rcases List.mem_cons.mp hm with rfl | hmem
    · simp only [managePlaylist, htrch, if_true]
      rcases hgc : getChannelVideos env (recordName s ch) ch with ⟨s2, videos⟩
      simp only [hgc]
      have hc : dbHas s2 vid := by
        have h3 := getChannelVideos_rss_covers env (recordName s ch) ch feed hrss hne0
          vid hvid henv
        rw [hgc] at h3
        exact h3
      exact managePlaylist_extends env feed hrss rest hner _ vid
        (processVideosForChannel_extends env videos s2 (ch.playlist_id.getD "") vid hc)
    · by_cases htr0 : truthy ch0.playlist_id = true
      · simp only [managePlaylist, htr0, if_true]
        rcases hgc : getChannelVideos env (recordName s ch0) ch0 with ⟨s2, videos⟩
        simp only [hgc]
        exact ih hner _ ch hmem htrch vid hvid henv
      · simp only [managePlaylist]
        rw [if_neg htr0]
        exact ih hner s ch hmem htrch vid hvid henv

theorem processRssEntries_noop (env : ApiEnv) :
    ∀ (entries : List String) (s : MgrState) (acc : List VideoDetails),
      (∀ vid ∈ entries, (lookupA s.db vid).isSome = true ∨ env.videoDetails vid = none) →
      (processRssEntries env s entries acc).2 = acc ∧
      (processRssEntries env s entries acc).1.db = s.db ∧
      (processRssEntries env s entries acc).1.insertCalls = s.insertCalls := by
  intro entries
  induction entries with
  | nil => intro s acc _; exact ⟨rfl, rfl, rfl⟩
  | cons v0 rest ih =>
    intro s acc hcov
    have hrest : ∀ vid ∈ rest, (lookupA s.db vid).isSome = true ∨ env.videoDetails vid = none :=
      fun vid hm => hcov vid (List.mem_cons_of_mem v0 hm)
    cases h1 : lookupA s.db v0 with
    | some w =>
      simp only [processRssEntries, h1]
      exact ih { s with stats := s.stats.addQuotaSaved "video_details" 1 } acc hrest
    | none =>
      have henv : env.videoDetails v0 = none := by
        rcases hcov v0 (List.mem_cons_self v0 rest) with hdb | henv
        · rw [h1] at hdb; simp at hdb
        · exact henv
      have hg : getVideoDetails env s v0 =
          ({ s with stats := s.stats.addQuota .video_details 1 }, none) := by
        simp [getVideoDetails, h1, henv]
      simp only [processRssEntries, h1, hg]
      exact ih { s with stats := s.stats.addQuota .video_details 1 } acc hrest

theorem getChannelVideos_noop (env : ApiEnv) (s : MgrState) (ch : ChannelConfig)
    (feed : String → List String) (hrss : env.rss = some feed)
    (hne : feed ch.channel_id ≠ [])
    (hcov : ∀ vid ∈ feed ch.channel_id,
      (lookupA s.db vid).isSome = true ∨ env.videoDetails vid = none) :
    (getChannelVideos env s ch).2 = [] ∧
    (getChannelVideos env s ch).1.db = s.db ∧
    (getChannelVideos env s ch).1.insertCalls = s.insertCalls := by
  have hne' : (feed ch.channel_id).isEmpty = false := by
    cases hf : feed ch.channel_id with
    | nil => exact absurd hf hne
    | cons a t => rfl
  simp only [getChannelVideos, hrss, hne', Bool.false_eq_true, if_false]
  exact processRssEntries_noop env (feed ch.channel_id) _ [] hcov

theorem managePlaylist_no_inserts (env : ApiEnv) (feed : String → List String)
    (hrss : env.rss = some feed) :
    ∀ (cfgL : List ChannelConfig) (s : MgrState),
      (∀ ch ∈ cfgL, feed ch.channel_id ≠ []) →
      (∀ ch ∈ cfgL, truthy ch.playlist_id = true →
        ∀ vid ∈ feed ch.channel_id,
          (lookupA s.db vid).isSome = true ∨ env.videoDetails vid = none) →
      (managePlaylist env s cfgL).insertCalls = s.insertCalls ∧
      (managePlaylist env s cfgL).db = s.db := by
  intro cfgL
  induction cfgL with
  | nil => intro s _ _; exact ⟨rfl, rfl⟩
  | cons ch0 rest ih =>
    intro s hne hcov
    have hne0 : feed ch0.channel_id ≠ [] := hne ch0 (List.mem_cons_self ch0 rest)
    have hner : ∀ c ∈ rest, feed c.channel_id ≠ [] :=
      fun c hc => hne c (List.mem_cons_of_mem ch0 hc)
    by_cases htr0 : truthy ch0.playlist_id = true
    · simp only [managePlaylist, htr0, if_true]
      rcases hgc : getChannelVideos env (recordName s ch0) ch0 with ⟨s2, videos⟩
      have hn := getChannelVideos_noop env (recordName s ch0) ch0 feed hrss hne0
        (fun vid hm => by
          rw [recordName_db]
          exact hcov ch0 (List.mem_cons_self ch0 rest) htr0 vid hm)
      rw [hgc] at hn
      simp only at hn
      obtain ⟨hv, hdb2, hic2⟩ := hn
      subst hv
      simp only [hgc]
      simp only [processVideosForChannel]
      have hrest := ih s2 hner (fun c hc htc vid hm => by
        rw [hdb2, recordName_db]
        exact hcov c (List.mem_cons_of_mem ch0 hc) htc vid hm)
      constructor
      · rw [hrest.1, hic2, recordName_insertCalls]
      · rw [hrest.2, hdb2, recordName_db]
    · simp only [managePlaylist]
      rw [if_neg htr0]
      exact ih s hner (fun c hc => hcov c (List.mem_cons_of_mem ch0 hc))

/-- The world as the next run finds it: the SQLite cache and the remote
playlists as this run left them, plus the pickled transient-cache dict. -/
def secondWorld (s : MgrState) : World :=
  { db := s.db, playlists := s.playlists, cacheFile := s.ytCache.cache }

/-- Claim C6: with the RSS manager available and every tracked channel's feed
non-empty and unchanged (no new candidate videos published), and the target
playlists unchanged between runs, a second run of the sync engine issues zero
`playlistItems().insert` calls: every candidate rediscovered on the second
pass is already in the durable cache (having been fetched, and added where
missing, by the first run) and is skipped before any membership diff. -/
theorem second_run_zero_inserts (env : ApiEnv) (w : World) (cfg : List ChannelConfig)
    (feed : String → List String) (hrss : env.rss = some feed)
    (hne : ∀ ch ∈ cfg, feed ch.channel_id ≠ []) :
    (managePlaylist env
      (freshState (secondWorld (managePlaylist env (freshState w) cfg)))
      cfg).insertCalls = 0 := by
  have hcov : ∀ ch ∈ cfg, truthy ch.playlist_id = true →
      ∀ vid ∈ feed ch.channel_id,
      (lookupA (freshState (secondWorld (managePlaylist env (freshState w) cfg))).db
        vid).isSome = true ∨ env.videoDetails vid = none := by
    intro ch hch htr vid hvid
    cases he : env.videoDetails vid with
    | none => exact Or.inr rfl
    | some d =>
      left
      have hc := managePlaylist_covers env feed hrss cfg hne (freshState w) ch hch htr
        vid hvid (by simp [he])
      exact hc
  have hmain := managePlaylist_no_inserts env feed hrss cfg
    (freshState (secondWorld (managePlaylist env (freshState w) cfg))) hne hcov
  exact hmain.1

def c6Feed : String → List String := fun _ => ["w1"]

def c6Video : VideoDetails :=
  { id := "w1",
    snippet := some { title := "Sixth upload", description := "release notes",
                      thumbnails := some (some (320, 180)) },
    contentDetails := some "PT3M" }

def c6Env : ApiEnv :=
  { internet := true, authOk := true, now := 0, research := fun _ _ => some true,
    rss := some c6Feed,
    videoDetails := fun vid => if vid = "w1" then some c6Video else none,
    search := fun _ => Except.ok [] }

def c6World : World :=
  { db := [], playlists := fun _ => [], cacheFile := fun _ => [] }

def c6Cfg : List ChannelConfig :=
  [{ channel_id := "c6", channel_name := "Chan Six", playlist_id := some "P6",
     playlist_name := some "List Six", title_pattern := none,
     min_duration := 0, max_duration := none }]

theorem second_run_zero_inserts_witness :
    (managePlaylist c6Env
      (freshState (secondWorld (managePlaylist c6Env (freshState c6World) c6Cfg)))
      c6Cfg).insertCalls = 0 :=
  second_run_zero_inserts c6Env c6World c6Cfg c6Feed rfl (by decide)

/-- The witness scenario is not vacuous: the first of the two runs really does
discover the candidate and issue one insert for it. -/
theorem second_run_witness_first_run_inserts :
    (managePlaylist c6Env (freshState c6World) c6Cfg).insertCalls = 1 := by
  decide
